import Mathlib

/-
Verification development for `python_utils/flask_sqlalchemy_base.py`.

The module provides ORM mixins: a lazy-computed cached property combinator
(`lazy_property`, `LazyMixin.invalidate`), a class-level parameter registry
(`register_parameter`, `ParametrizedMixin`), and an optimistic versioning
scheme (`Versions`, `VersionedMixin`).

Shallow embedding conventions:
  * Python runtime values are modelled by `PyVal` (None, bool, int, str and
    JSON-like dicts with string keys); runtime classes by `PyType`.
  * A Python object's instance attributes are an association list
    `Attrs = List (String × PyVal)`; `getattr?`/`setattr`/`delattrA`/`hasattrA`
    model the attribute protocol.  Declared ORM columns (`id`, `name`,
    `version`, `params`) read as `PyVal.none` until assigned, so instances
    carry those keys from construction.
  * The process-wide class-attribute state used by the parameter registry is a
    function `Env` from class name to the class's own `__dict__`, restricted to
    the `__parameter_defaults__<Cls>` registry fields; the class hierarchy is a
    function `Hier` from class name to its method resolution order (the class
    itself first, as in Python).
  * The database is explicit state: a `versions` table (list of rows) and, for
    the versioned-entity claims, the entity table of the one concrete class
    under consideration.
  * Code that raises is modelled with `Except String`; where a raise cannot be
    reached the state-threading return shape keeps the unchanged state.
-/

/-- Python runtime values occurring in this module: None, booleans, integers,
strings, and JSON-like documents (dicts keyed by strings). -/
inductive PyVal where
  | none : PyVal
  | bool (b : Bool) : PyVal
  | int (n : Int) : PyVal
  | str (s : String) : PyVal
  | dict (entries : List (String × PyVal)) : PyVal

/-- Python runtime classes used as registered parameter types. -/
inductive PyType where
  | noneType | boolT | intT | strT | dictT
deriving DecidableEq, Repr

/-- Runtime class of a value, as Python's `type(v)` reports it. -/
def typeOf : PyVal → PyType
  | .none => .noneType
  | .bool _ => .boolT
  | .int _ => .intT
  | .str _ => .strT
  | .dict _ => .dictT

/-- Python `isinstance(v, t)`: the runtime class matches, or `v` is a `bool`
and `t` is `int` (in Python, `bool` is a subclass of `int`). -/
def isinst (v : PyVal) (t : PyType) : Bool :=
  typeOf v == t || (typeOf v == PyType.boolT && t == PyType.intT)

/-- Python truthiness: None, False, 0, the empty string and the empty dict are
falsy; everything else in the value model is truthy. -/
def truthy : PyVal → Bool
  | .none => false
  | .bool b => b
  | .int n => !(n == 0)
  | .str s => !(s == "")
  | .dict es => !(es.isEmpty)

/-- Python identity test against the `None` singleton (`v is None`). -/
def isNone : PyVal → Bool
  | .none => true
  | _ => false

/-- Python equality on the scalar values that are compared in this module
(version-counter record names against entity names).  Dict equality never
arises in those comparisons, so dicts compare unequal here. -/
def pyEq : PyVal → PyVal → Bool
  | .none, .none => true
  | .bool a, .bool b => a == b
  | .int a, .int b => a == b
  | .str a, .str b => a == b
  | _, _ => false

/-- First-match lookup in an association list with string keys, the behaviour
of a Python attribute dictionary read. -/
def assocLookup {α : Type} : List (String × α) → String → Option α
  | [], _ => Option.none
  | (k, v) :: rest, s => if k == s then some v else assocLookup rest s

/-- Update of an association list: replaces the first binding of the key, or
appends a new binding when the key is absent (Python dict assignment). -/
def assocSet {α : Type} : List (String × α) → String → α → List (String × α)
  | [], s, v => [(s, v)]
  | (k, w) :: rest, s, v =>
      if k == s then (s, v) :: rest else (k, w) :: assocSet rest s v

/-- Deletion of the first binding of a key from an association list
(Python `del d[k]` / `delattr`). -/
def assocDelete {α : Type} : List (String × α) → String → List (String × α)
  | [], _ => []
  | (k, v) :: rest, s => if k == s then rest else (k, v) :: assocDelete rest s

theorem assocLookup_assocSet_self {α : Type} (l : List (String × α)) (s : String) (v : α) :
    assocLookup (assocSet l s v) s = some v := by
  induction l with
  | nil => simp [assocSet, assocLookup]
  | cons hd tl ih =>
      obtain ⟨k, w⟩ := hd
      by_cases h : k = s
      · simp [assocSet, assocLookup, h]
      · simp [assocSet, assocLookup, h, ih]

theorem assocLookup_assocSet_ne {α : Type} (l : List (String × α)) (s s' : String) (v : α)
    (h : s' ≠ s) : assocLookup (assocSet l s v) s' = assocLookup l s' := by
  induction l with
  | nil => simp [assocSet, assocLookup, Ne.symm h]
  | cons hd tl ih =>
      obtain ⟨k, w⟩ := hd
      by_cases hk : k = s
      · subst hk
        simp [assocSet, assocLookup, Ne.symm h]
      · by_cases hk' : k = s'
        · subst hk'
          simp [assocSet, assocLookup, hk]
        · simp [assocSet, assocLookup, hk, hk', ih]

theorem assocLookup_eq_none_of_not_mem {α : Type} (l : List (String × α)) (s : String)
    (h : s ∉ l.map Prod.fst) : assocLookup l s = Option.none := by
  induction l with
  | nil => rfl
  | cons hd tl ih =>
      obtain ⟨k, w⟩ := hd
      simp only [List.map_cons, List.mem_cons] at h
      push_neg at h
      simp [assocLookup, Ne.symm h.1, ih h.2]

theorem assocLookup_assocDelete_self {α : Type} (l : List (String × α)) (s : String)
    (h : (l.map Prod.fst).Nodup) : assocLookup (assocDelete l s) s = Option.none := by
  induction l with
  | nil => rfl
  | cons hd tl ih =>
      obtain ⟨k, w⟩ := hd
      simp only [List.map_cons, List.nodup_cons] at h
      by_cases hk : k = s
      · subst hk
        simpa [assocDelete] using assocLookup_eq_none_of_not_mem tl k h.1
      · simp [assocDelete, assocLookup, hk, ih h.2]

/-- A Python object's instance-attribute dictionary. -/
abbrev Attrs := List (String × PyVal)

/-- Attribute read, `getattr(self, k)` returning `none` on `AttributeError`. -/
def getattr? (a : Attrs) (k : String) : Option PyVal := assocLookup a k

/-- Attribute write, `setattr(self, k, v)`. -/
def setattr (a : Attrs) (k : String) (v : PyVal) : Attrs := assocSet a k v

/-- Attribute deletion, `delattr(self, k)` (callers guard existence). -/
def delattrA (a : Attrs) (k : String) : Attrs := assocDelete a k

/-- Attribute existence test, `hasattr(self, k)`. -/
def hasattrA (a : Attrs) (k : String) : Bool := (getattr? a k).isSome

theorem getattr?_setattr_self (a : Attrs) (k : String) (v : PyVal) :
    getattr? (setattr a k v) k = some v :=
  assocLookup_assocSet_self a k v

theorem getattr?_setattr_ne (a : Attrs) (k k' : String) (v : PyVal) (h : k' ≠ k) :
    getattr? (setattr a k v) k' = getattr? a k' :=
  assocLookup_assocSet_ne a k k' v h

theorem hasattrA_setattr (a : Attrs) (k k' : String) (v : PyVal) :
    hasattrA (setattr a k v) k' = (k' == k || hasattrA a k') := by
  by_cases h : k' = k
  · subst h
    simp [hasattrA, getattr?_setattr_self]
  · simp [hasattrA, getattr?_setattr_ne a k k' v h, h]

/-- Name of the hidden instance attribute a lazy property caches under:
the source computes `'__lazy_' + f.__name__` in `lazy_property` and
`'__lazy_' + property_name` in `LazyMixin.invalidate`. -/
def lazyAttrName (n : String) : String := "__lazy_" ++ n

/-- Getter produced by the `lazy_property` decorator (the inner
`lazy_property_wrapper`): try to read the cached attribute; on
`AttributeError` run the wrapped computation, store its result under the
derived name and return it.  The source's trailing
`except Exception as e: raise e` re-raises unchanged and adds no behaviour. -/
def lazy_property (fname : String) (f : Attrs → PyVal) (self : Attrs) : PyVal × Attrs :=
  match getattr? self (lazyAttrName fname) with
  | some v => (v, self)
  | Option.none =>
      let v := f self
      (v, setattr self (lazyAttrName fname) v)

/-- Lexicographic comparison of character lists by code point. -/
def charListLe : List Char → List Char → Bool
  | [], _ => true
  | _ :: _, [] => false
  | c :: cs, d :: ds =>
      if c.toNat < d.toNat then true
      else if d.toNat < c.toNat then false
      else charListLe cs ds

/-- Lexicographic string order by code points, the order Python's
`sorted`/`dir` uses for attribute names. -/
def strLe (s t : String) : Bool := charListLe s.data t.data

/-- Insertion of a string into a sorted list. -/
def insertStr (s : String) : List String → List String
  | [] => [s]
  | t :: ts => if strLe s t then s :: t :: ts else t :: insertStr s ts

/-- Insertion sort on strings; `dir()` returns attribute names sorted. -/
def sortStr : List String → List String
  | [] => []
  | s :: ss => insertStr s (sortStr ss)

/-- Keep the first occurrence of each string, as the set of names produced by
`dir()` has no duplicates. -/
def dedupKeepFirst (l : List String) : List String :=
  l.foldl (fun acc s => if acc.contains s then acc else acc ++ [s]) []

/-- Model of `LazyMixin.invalidate(property_name=None)`.  With no argument it
deletes every instance attribute whose name starts with `'__lazy_'` (found via
`dir(self)`; the lazy caches are instance attributes, and no class attribute
of the module starts with `'__lazy_'`).  With an explicit name it deletes the
derived attribute only when present, so a missing entry is left alone and the
guarded `delattr` cannot raise.  The source docstring advertises an
`AttributeError` for a missing name, but the `hasattr` guard prevents it. -/
def LazyMixin.invalidate (self : Attrs) (property_name : Option String) : Attrs :=
  match property_name with
  | Option.none =>
      let lazyNames := (sortStr (dedupKeepFirst (self.map Prod.fst))).filter
        (fun n => n.startsWith "__lazy_")
      lazyNames.foldl delattrA self
  | some p =>
      let n := lazyAttrName p
      if hasattrA self n then delattrA self n else self

theorem getattr?_invalidate_some (self : Attrs) (p : String)
    (h : (self.map Prod.fst).Nodup) :
    getattr? (LazyMixin.invalidate self (some p)) (lazyAttrName p) = Option.none := by
  by_cases hp : hasattrA self (lazyAttrName p)
  · have he : LazyMixin.invalidate self (some p) = delattrA self (lazyAttrName p) := by
      unfold LazyMixin.invalidate
      simp [hp]
    rw [he]
    exact assocLookup_assocDelete_self self (lazyAttrName p) h
  · have he : LazyMixin.invalidate self (some p) = self := by
      unfold LazyMixin.invalidate
      simp [hp]
    rw [he]
    simp only [hasattrA] at hp
    exact Option.not_isSome_iff_eq_none.mp hp

/-- One parameter descriptor as stored in a registry list: the dict literal
appended in `register_parameter.__call__`.  `psection` models the `'section'`
key (`section` is reserved in Lean); `ptype` models the `'type'` key. -/
structure Param where
  psection : String
  name : String
  default : PyVal
  ptype : PyType
  description : String
  cls : String

/-- A class registry: the list bound to a `__parameter_defaults__<Cls>` class
attribute. -/
abbrev Registry := List Param

/-- The registry-relevant part of one class's own `__dict__`: an association
from registry-field owner name to the registry list.  The full Python field
name is `'__parameter_defaults__' + owner`; since that prefix is shared, the
association is keyed by the owner-class suffix. -/
abbrev ClassDict := List (String × Registry)

/-- Process-wide class-attribute state: each class name maps to its own
`__dict__` restricted to registry fields. -/
abbrev Env := String → ClassDict

/-- Class hierarchy: each class name maps to its method resolution order,
starting with the class itself, as Python's attribute lookup walks it. -/
abbrev Hier := String → List String

/-- Registry field read from a class's own `__dict__` only. -/
def getOwn (env : Env) (c suffix : String) : Option Registry :=
  assocLookup (env c) suffix

/-- Registry field write into a class's own `__dict__` (`setattr(cls, ...)`). -/
def setOwn (env : Env) (c suffix : String) (ps : Registry) : Env :=
  fun c' => if c' == c then assocSet (env c) suffix ps else env c'

/-- First class along `c`'s MRO whose own `__dict__` has the field: where
Python's class-attribute lookup finds `__parameter_defaults__<suffix>`. -/
def findOwner (hier : Hier) (env : Env) (c suffix : String) : Option String :=
  (hier c).find? (fun a => (getOwn env a suffix).isSome)

/-- `getattr(c, '__parameter_defaults__' + suffix)`, walking the MRO. -/
def getattrReg (hier : Hier) (env : Env) (c suffix : String) : Option Registry :=
  (findOwner hier env c suffix).bind (fun a => getOwn env a suffix)

/-- `hasattr(c, '__parameter_defaults__' + suffix)`. -/
def hasattrReg (hier : Hier) (env : Env) (c suffix : String) : Bool :=
  (findOwner hier env c suffix).isSome

/-- Owner suffixes of the registry fields visible from `c`, sorted: the
`[field for field in dir(cls) if field.startswith(PARAMETER_REGISTRY)]`
comprehension.  `dir` returns the de-duplicated attribute names of the whole
MRO in sorted order; all registry fields share the
`'__parameter_defaults__'` prefix, so sorting the full names is sorting the
owner suffixes. -/
def dirSuffixes (hier : Hier) (env : Env) (c : String) : List String :=
  sortStr (dedupKeepFirst ((hier c).foldl (fun acc a => acc ++ (env a).map Prod.fst) []))

/-- The decorator object built by `register_parameter.__init__`:
`section='main'`, `name=''`, `default=''`, optional explicit type,
`description=''`, optional alternate target class. -/
structure register_parameter where
  psection : String
  name : String
  default : PyVal
  parameter_type : PyType
  description : String
  target_class : Option String

/-- Model of `register_parameter.__init__`: when no explicit type is given the
registered type is inferred as `type(default)`. -/
def register_parameter.init (psection name : String) (default : PyVal)
    (parameter_type : Option PyType) (description : String)
    (target_class : Option String) : register_parameter :=
  { psection := psection, name := name, default := default,
    parameter_type := parameter_type.getD (typeOf default),
    description := description, target_class := target_class }

/-- Inherited-registry merge performed inside `register_parameter.__call__`
when the target class has no registry field yet: walk the visible registry
fields of the decorated class in `dir` order, keep each descriptor whose name
was not contributed by an earlier field (`parent_param_names` is extended with
every name of each field after filtering against it), and concatenate. -/
def mergeInherited (hier : Hier) (env : Env) (cls : String) : Registry :=
  ((dirSuffixes hier env cls).foldl
    (fun acc f =>
      let ps := (getattrReg hier env cls f).getD []
      (acc.1 ++ ps.filter (fun p => !(acc.2.contains p.name)),
       acc.2 ++ ps.map Param.name))
    (([], []) : Registry × List String)).1

/-- Second half of `register_parameter.__call__(cls)`, after the registry
field is ensured: the field is fetched with `getattr` and mutated in place,
so the append lands on whichever class owns the found list.  A descriptor
whose name is already present raises `ValueError`; the `AttributeError`
branch is unreachable because a class is always the head of its own MRO. -/
def register_parameter.callAppend (hier : Hier) (env1 : Env) (r : register_parameter)
    (tcls sec : String) : Except String Env :=
  match findOwner hier env1 tcls tcls with
  | Option.none => Except.error "AttributeError"
  | some owner =>
      let params := (getOwn env1 owner tcls).getD []
      match params.find? (fun p => p.name == r.name) with
      | some p =>
          Except.error ("Parameter " ++ r.name ++ " already defined in class " ++ p.cls)
      | Option.none =>
          Except.ok (setOwn env1 owner tcls
            (params ++ [{ psection := sec, name := r.name, default := r.default,
                          ptype := r.parameter_type, description := r.description,
                          cls := tcls }]))

/-- Model of `register_parameter.__call__(cls)`.  The target class is
`target_class` when given, else the decorated class.  If the target has no
registry field anywhere on its MRO, one is created on the target holding the
merged parent registries of the decorated class (note: `dir(cls)` and
`getattr(cls, f)`, not `tcls`); the duplicate check and append then run on
the fetched field. -/
def register_parameter.call (hier : Hier) (env : Env) (r : register_parameter)
    (cls : String) : Except String Env :=
  let tcls := r.target_class.getD cls
  let sec := cls ++ ":" ++ r.psection
  let env1 :=
    if hasattrReg hier env tcls tcls then env
    else setOwn env tcls tcls (mergeInherited hier env cls)
  register_parameter.callAppend hier env1 r tcls sec

/-- Model of `ParametrizedMixin.registered_parameters()`.  When the class has
its own registry field (directly or inherited) it is returned as is.
Otherwise the visible parent fields are concatenated and cached on the class.
In this build, unlike the one inside `register_parameter.__call__`, the source
initialises `parent_param_names = set()` and never extends it, so the
`p['name'] not in parent_param_names` filter keeps every descriptor: the
result is a plain concatenation with no de-duplication. -/
def ParametrizedMixin.registered_parameters (hier : Hier) (env : Env) (cls : String) :
    Registry × Env :=
  if hasattrReg hier env cls cls then ((getattrReg hier env cls cls).getD [], env)
  else
    let parentParams :=
      (dirSuffixes hier env cls).foldl
        (fun acc f => acc ++ (getattrReg hier env cls f).getD []) []
    (parentParams, setOwn env cls cls parentParams)

/-- Model of `ParametrizedMixin.parameter_default(name)`: the `default` of the
first registered descriptor with that name, else `None`. -/
def ParametrizedMixin.parameter_default (hier : Hier) (env : Env) (cls name : String) :
    PyVal × Env :=
  let rp := ParametrizedMixin.registered_parameters hier env cls
  (match rp.1.find? (fun p => p.name == name) with
   | some p => p.default
   | Option.none => PyVal.none, rp.2)

/-- Model of `ParametrizedMixin.parameter_type(name)`: the `type` of the first
registered descriptor with that name, else `None` (no descriptor ever stores
`None` as its type, so `none` here means exactly "not registered"). -/
def ParametrizedMixin.parameter_type (hier : Hier) (env : Env) (cls name : String) :
    Option PyType × Env :=
  let rp := ParametrizedMixin.registered_parameters hier env cls
  ((rp.1.find? (fun p => p.name == name)).map Param.ptype, rp.2)

/-- Body of the `parameters` lazy property: an empty (falsy) `params` document
yields a fresh empty dict, otherwise `params` itself is returned.  The
comparison against the `JSON.NULL` sentinel cannot hold for an
already-parsed dict value, and the `try`/`except` around returning the
attribute cannot fire, so neither adds behaviour in the value model. -/
def ParametrizedMixin.parametersBody (self : Attrs) : PyVal :=
  let p := (getattr? self "params").getD PyVal.none
  if !(truthy p) then PyVal.dict [] else p

/-- The `parameters` lazy property of `ParametrizedMixin`: a `lazy_property`
wrapping `parametersBody`, cached under `__lazy_parameters`. -/
def ParametrizedMixin.parameters (self : Attrs) : PyVal × Attrs :=
  lazy_property "parameters" ParametrizedMixin.parametersBody self

/-- Lookup in a JSON-like document; a non-dict value has no keys. -/
def dictLookup (pv : PyVal) (k : String) : Option PyVal :=
  match pv with
  | .dict es => assocLookup es k
  | _ => Option.none

/-- Python `d.get(k, dflt)`. -/
def dictGet (pv : PyVal) (k : String) (dflt : PyVal) : PyVal :=
  (dictLookup pv k).getD dflt

/-- Python `d[k] = v`; the non-dict fallback is unreachable because
`parameters` always yields a dict. -/
def dictSet (pv : PyVal) (k : String) (v : PyVal) : PyVal :=
  match pv with
  | .dict es => .dict (assocSet es k v)
  | _ => .dict [(k, v)]

/-- Model of `ParametrizedMixin.get(name, default=None)`: the source returns
`self.parameters.get(name, default or self.parameter_default(name))`, so the
fallback passed to the dict lookup is the caller's default only when it is
truthy, and the registered default otherwise (Python's short-circuiting
`or`).  Returns the value, the object (whose lazy cache the property access
may have filled) and the class-attribute state (which
`registered_parameters` may have extended with a cached registry). -/
def ParametrizedMixin.get (hier : Hier) (env : Env) (cls : String) (self : Attrs)
    (name : String) (default : PyVal) : PyVal × Attrs × Env :=
  let acc := ParametrizedMixin.parameters self
  if truthy default then (dictGet acc.1 name default, acc.2, env)
  else
    let d := ParametrizedMixin.parameter_default hier env cls name
    (dictGet acc.1 name d.1, acc.2, d.2)

/-- Model of `ParametrizedMixin.set(name, value)`.  An unregistered name
(`parameter_type` returned `None`) raises; a value failing
`isinstance(value, registered_type)` raises (the source's second conjunct
`not isinstance(registered_type, type(None))` is always true there, since a
class object is never an instance of `NoneType`).  On success
`self.parameters[name] = value` mutates the dict returned by the lazy
property — updating the cache, and `params` too when they alias — then
`self.invalidate(name)` drops a lazy attribute named after the parameter (not
the parsed view), and `self.params = self.parameters` writes the document
back; on plain values the aliasing nets out to storing the updated dict in
both the cache and `params`, which is how the success path is modelled.
Returns the outcome, the object and the class-attribute state. -/
def ParametrizedMixin.set (hier : Hier) (env : Env) (cls : String) (self : Attrs)
    (name : String) (value : PyVal) : Except String Unit × Attrs × Env :=
  let rt := ParametrizedMixin.parameter_type hier env cls name
  match rt.1 with
  | Option.none =>
      (Except.error ("Parameter " ++ name ++ " is not registered for class " ++ cls),
       self, rt.2)
  | some t =>
      if !(isinst value t) then
        (Except.error "The value is not the same type as registered", self, rt.2)
      else
        let acc := ParametrizedMixin.parameters self
        let newDoc := dictSet acc.1 name value
        let self1 := setattr acc.2 (lazyAttrName "parameters") newDoc
        let self2 := LazyMixin.invalidate self1 (some name)
        let acc2 := ParametrizedMixin.parameters self2
        let self3 := setattr acc2.2 "params" acc2.1
        (Except.ok (), self3, rt.2)

/-- One row of the `versions` table:
`(id, class_name, record_name, max_version)`. -/
structure VersionsRow where
  id : Int
  class_name : String
  record_name : PyVal
  max_version : Int

/-- First row matching the `Versions.class_name == ..., Versions.record_name
== ...` filter, as `query(...).first()` returns it. -/
def findVersionsRow (t : List VersionsRow) (cls : String) (nm : PyVal) :
    Option VersionsRow :=
  t.find? (fun r => r.class_name == cls && pyEq r.record_name nm)

/-- Row addressed by primary key. -/
def rowById (t : List VersionsRow) (i : Int) : Option VersionsRow :=
  t.find? (fun r => r.id == i)

/-- Model of `Versions.current_max_version()` acting on the row with id `i`.
The source assigns `self.max_version = Versions.max_version + 1`: the right
side is the column expression, so the flush on `db.session.commit()` issues
`UPDATE versions SET max_version = max_version + 1` for this row against the
stored value, and the subsequent `return self.max_version` reads back the
updated database value (the expression-assigned attribute is expired by the
flush).  The `getD 0` fallback is unreachable when the row is in the table. -/
def Versions.current_max_version (t : List VersionsRow) (i : Int) :
    Int × List VersionsRow :=
  let t' := t.map (fun r =>
    if r.id == i then { r with max_version := r.max_version + 1 } else r)
  (((rowById t' i).map (fun r => r.max_version)).getD 0, t')

/-- One row of the versioned-entity table of the concrete class under
consideration: `(id, name, version)`. -/
structure EntityRow where
  id : Int
  name : PyVal
  version : Int

/-- Explicit database state for the versioning claims: the `versions` counter
table and the entity table of the one versioned class. -/
structure DB where
  versions : List VersionsRow
  entities : List EntityRow

/-- The aggregate `query(tc, func.max(tc.version)).filter(tc.name == ...)`:
maximum version among entity rows with the given name, `None` when there are
none. -/
def maxEntityVersion (es : List EntityRow) (nm : PyVal) : Option Int :=
  match (es.filter (fun e => pyEq e.name nm)).map EntityRow.version with
  | [] => Option.none
  | v :: vs => some (vs.foldl max v)

/-- Fresh `AUTO_INCREMENT` surrogate key for a new `versions` row. -/
def freshId (t : List VersionsRow) : Int :=
  (t.foldl (fun m r => max m r.id) 0) + 1

/-- Model of `VersionedMixin.set_version()`.  Look up the counter row for
(class name, record name); if absent, create it seeded with the largest
version already present in the entity table for that name (`v if v else 0`
behaves as `getD 0`: a missing aggregate gives 0 and a zero maximum stays 0)
and commit it; then assign the instance's `version` from
`current_max_version()` on that row.  An unset `name` column attribute reads
as `None`. -/
def VersionedMixin.set_version (db : DB) (clsName : String) (self : Attrs) :
    Attrs × DB :=
  let nm := (getattr? self "name").getD PyVal.none
  match findVersionsRow db.versions clsName nm with
  | some row =>
      let res := Versions.current_max_version db.versions row.id
      (setattr self "version" (PyVal.int res.1), { db with versions := res.2 })
  | Option.none =>
      let seed := (maxEntityVersion db.entities nm).getD 0
      let rid := freshId db.versions
      let t0 := db.versions ++
        [{ id := rid, class_name := clsName, record_name := nm, max_version := seed }]
      let res := Versions.current_max_version t0 rid
      (setattr self "version" (PyVal.int res.1), { db with versions := res.2 })

/-- The `**kwargs` loop of `new_version`: apply each override in order when
the instance has the attribute and the supplied value is not `None`. -/
def applyKw (s : Attrs) (kw : List (String × PyVal)) : Attrs :=
  kw.foldl
    (fun s kv => if hasattrA s kv.1 && !(isNone kv.2) then setattr s kv.1 kv.2 else s) s

/-- Model of `VersionedMixin.new_version(**kwargs)`: run `set_version()`,
detach the instance (`make_transient` unlinks the object from its row without
touching the row's data), clear the surrogate id, apply the overrides, and
return the mutated instance together with the database state. -/
def VersionedMixin.new_version (db : DB) (clsName : String) (self : Attrs)
    (kwargs : List (String × PyVal)) : Attrs × DB :=
  let sv := VersionedMixin.set_version db clsName self
  let s2 := setattr sv.1 "id" PyVal.none
  (applyKw s2 kwargs, sv.2)

/-- Model of `VersionedMixin.__init__(name='', version=None)`: the declared
columns read as `None` before assignment; the constructor stores `name`
unconditionally — no emptiness check exists — and stores `version` only when
it is a non-`None` `int` (a `bool` passes `isinstance(version, int)`),
raising `ValueError` otherwise. -/
def VersionedMixin.init (name : PyVal) (version : PyVal) : Except String Attrs :=
  let base : Attrs := [("id", PyVal.none), ("name", name), ("version", PyVal.none)]
  if isNone version then Except.ok base
  else if isinst version PyType.intT then Except.ok (setattr base "version" version)
  else Except.error "Version can only be integer"

/-- Version stored by the persistence layer on insert: the declared column is
`Column(Integer, default=1, nullable=False)`, so an instance whose `version`
was never assigned takes the column default 1. -/
def versionOnInsert (a : Attrs) : PyVal :=
  match getattr? a "version" with
  | some (PyVal.int n) => PyVal.int n
  | _ => PyVal.int 1

/-- Hierarchy of classes with no relevant ancestors: the MRO is the class
alone. -/
def hierOne : Hier := fun c => [c]

/-- Three-class chain used in the inheritance scenarios: `C` inherits from
`B`, which inherits from `A`. -/
def hierABC : Hier := fun c =>
  if c == "C" then ["C", "B", "A"] else if c == "B" then ["B", "A"] else [c]

/-- Class-attribute state before any decorator has run. -/
def envEmpty : Env := fun _ => []

/-- Decorator registering parameter `x`, an `int` defaulting to 0. -/
def regX : register_parameter :=
  register_parameter.init "main" "x" (PyVal.int 0) Option.none "" Option.none

/-- Decorator registering parameter `y`, an `int` defaulting to 0. -/
def regY : register_parameter :=
  register_parameter.init "main" "y" (PyVal.int 0) Option.none "" Option.none

/-- Decorator registering parameter `p`, an `int` defaulting to 7. -/
def regP : register_parameter :=
  register_parameter.init "main" "p" (PyVal.int 7) Option.none "" Option.none

/-- Environment extracted from a decorator application known to succeed. -/
def envOfCall (e : Except String Env) (d : Env) : Env :=
  match e with
  | Except.ok x => x
  | Except.error _ => d

/-- Successful decorator application viewed as an optional environment. -/
def envOk (e : Except String Env) : Option Env :=
  match e with
  | Except.ok x => some x
  | Except.error _ => Option.none

/-- Class-attribute state after registering `p` on the standalone class `P`. -/
def envP : Env := envOfCall (register_parameter.call hierOne envEmpty regP "P") envEmpty

theorem findQ_congr {α : Type} (l : List α) (p q : α → Bool)
    (h : ∀ a ∈ l, p a = q a) : l.find? p = l.find? q := by
  induction l with
  | nil => rfl
  | cons hd tl ih =>
      have hp := h hd (List.mem_cons_self hd tl)
      cases hq : q hd with
      | true => simp [List.find?, hp, hq]
      | false =>
          simp [List.find?, hp, hq]
          exact ih (fun a ha => h a (List.mem_cons_of_mem hd ha))

theorem findQ_append_right {α : Type} (l1 l2 : List α) (p : α → Bool)
    (h : l1.find? p = Option.none) : (l1 ++ l2).find? p = l2.find? p := by
  induction l1 with
  | nil => rfl
  | cons hd tl ih =>
      cases hp : p hd with
      | true => simp [List.find?, hp] at h
      | false =>
          simp only [List.find?, hp] at h
          simpa [List.find?, hp] using ih h

/-- C3 evidence: with `x` registered on `A` and `y` on `B(A)` — names
pairwise distinct, both registrations succeeding — the registry built by
`registered_parameters()` for the undecorated subclass `C(B)` holds three
descriptors, the inherited `x` twice: the read-side build never extends
`parent_param_names`, so the visible parent fields are concatenated without
de-duplication and "exactly one descriptor per name" fails. -/
theorem registered_parameters_inherited_duplicate :
    ((envOk (register_parameter.call hierABC envEmpty regX "A")).bind (fun e1 =>
      (envOk (register_parameter.call hierABC e1 regY "B")).map (fun e2 =>
        (ParametrizedMixin.registered_parameters hierABC e2 "C").1.map Param.name)))
    = some ["x", "x", "y"] := by decide

theorem getOwn_setOwn_self (env : Env) (c suffix : String) (ps : Registry) :
    getOwn (setOwn env c suffix ps) c suffix = some ps := by
  simp [getOwn, setOwn, assocLookup_assocSet_self]

theorem getOwn_setOwn_isSome (env : Env) (c c' suffix : String) (ps : Registry)
    (hc : c' = c → (getOwn env c suffix).isSome = true) :
    (getOwn (setOwn env c suffix ps) c' suffix).isSome = (getOwn env c' suffix).isSome := by
  by_cases h : c' = c
  · subst h
    have hv := hc rfl
    simp only [getOwn] at hv
    simp [getOwn, setOwn, assocLookup_assocSet_self, hv]
  · simp [getOwn, setOwn, h]

theorem findOwner_setOwn (hier : Hier) (env : Env) (c suffix owner : String) (ps : Registry)
    (hpres : (getOwn env owner suffix).isSome = true) :
    findOwner hier (setOwn env owner suffix ps) c suffix = findOwner hier env c suffix := by
  unfold findOwner
  exact findQ_congr _ _ _ (fun a _ =>
    getOwn_setOwn_isSome env owner a suffix ps (fun h => h ▸ hpres))

theorem register_parameter.callAppend_ok (hier : Hier) (E env' : Env)
    (r : register_parameter) (tcls sec : String)
    (hok : register_parameter.callAppend hier E r tcls sec = Except.ok env') :
    ∃ owner L,
      findOwner hier E tcls tcls = some owner ∧
      env' = setOwn E owner tcls L ∧
      ∃ q ∈ L, q.name = r.name := by
  unfold register_parameter.callAppend at hok
  split at hok
  · simp at hok
  · rename_i owner heq
    dsimp only at hok
    split at hok
    · simp at hok
    · rename_i hfind
      simp only [Except.ok.injEq] at hok
      refine ⟨owner, _, heq, hok.symm, ?_⟩
      refine ⟨{ psection := sec, name := r.name, default := r.default,
                ptype := r.parameter_type, description := r.description,
                cls := tcls }, ?_, rfl⟩
      exact List.mem_append_right _ (List.mem_singleton.mpr rfl)

theorem register_parameter.call_dup_error (hier : Hier) (env2 : Env)
    (r' : register_parameter) (cls owner : String)
    (hfo : findOwner hier env2 (r'.target_class.getD cls) (r'.target_class.getD cls)
             = some owner)
    (hmem : ∃ q ∈ (getOwn env2 owner (r'.target_class.getD cls)).getD [],
              q.name = r'.name) :
    ∃ m, register_parameter.call hier env2 r' cls = Except.error m := by
  obtain ⟨q, hqmem, hqname⟩ := hmem
  unfold register_parameter.call register_parameter.callAppend
  dsimp only
  have hhas : hasattrReg hier env2 (r'.target_class.getD cls) (r'.target_class.getD cls)
      = true := by
    simp [hasattrReg, hfo]
  simp only [hhas, if_true, hfo]
  cases hf : ((getOwn env2 owner (r'.target_class.getD cls)).getD []).find?
      (fun p => p.name == r'.name) with
  | some p => exact ⟨_, rfl⟩
  | none =>
      rw [List.find?_eq_none] at hf
      exact absurd (by simpa using hqname) (hf q hqmem)

theorem findOwner_isSome_at (hier : Hier) (E : Env) (c suffix owner : String)
    (h : findOwner hier E c suffix = some owner) :
    (getOwn E owner suffix).isSome = true := by
  have hp := List.find?_some (by simpa [findOwner] using h)
  simpa using hp

/-- C7: registering a parameter descriptor with a name already present for
the same target raises `ValueError` at decorator-application time: once a
registration of `name` has succeeded, a second registration with the same
`name` and the same target class, applied to the same class, fails. -/
theorem register_parameter.duplicate_rejected
    (hier : Hier) (env env' : Env) (r r' : register_parameter) (cls : String)
    (hok : register_parameter.call hier env r cls = Except.ok env')
    (hname : r'.name = r.name) (htc : r'.target_class = r.target_class) :
    ∃ m, register_parameter.call hier env' r' cls = Except.error m := by
  obtain ⟨owner, L, hfo, henv', q, hqmem, hqname⟩ :=
    register_parameter.callAppend_ok hier _ env' r (r.target_class.getD cls)
      (cls ++ ":" ++ r.psection) hok
  have hpres := findOwner_isSome_at hier _ _ _ _ hfo
  subst henv'
  apply register_parameter.call_dup_error hier _ r' cls owner
  · rw [htc, findOwner_setOwn _ _ _ _ _ _ hpres]
    exact hfo
  · rw [htc, hname, getOwn_setOwn_self]
    simp only [Option.getD_some]
    exact ⟨q, hqmem, hqname⟩

/-- Witness for C7: registering `p` on the standalone class `P` succeeds and
registering `p` on `P` a second time then fails. -/
theorem register_parameter.duplicate_rejected_witness :
    ∃ m, register_parameter.call hierOne envP regP "P" = Except.error m :=
  register_parameter.duplicate_rejected hierOne envEmpty envP regP regP "P" rfl rfl rfl

/-- C6: behaviour of a lazy property over an instance.  (i) With no cached
entry, a read executes the wrapped computation, returns its result and stores
it under the derived attribute name.  (ii) With a cached entry, a read
returns exactly the stored value and leaves the instance unchanged, for every
wrapped computation — the result does not depend on it, so nothing is
re-executed.  (iii) After `invalidate` of the property, a read executes the
computation again as in (i). -/
theorem lazy_property_spec (fname : String) (f : Attrs → PyVal) (self : Attrs)
    (hnd : (self.map Prod.fst).Nodup) :
    (getattr? self (lazyAttrName fname) = Option.none →
        lazy_property fname f self =
          (f self, setattr self (lazyAttrName fname) (f self))) ∧
    (∀ v, getattr? self (lazyAttrName fname) = some v →
        ∀ g : Attrs → PyVal, lazy_property fname g self = (v, self)) ∧
    (lazy_property fname f (LazyMixin.invalidate self (some fname)) =
        (f (LazyMixin.invalidate self (some fname)),
         setattr (LazyMixin.invalidate self (some fname)) (lazyAttrName fname)
           (f (LazyMixin.invalidate self (some fname))))) := by
  refine ⟨?_, ?_, ?_⟩
  · intro h
    unfold lazy_property
    rw [h]
  · intro v h g
    unfold lazy_property
    rw [h]
  · have h0 := getattr?_invalidate_some self fname hnd
    unfold lazy_property
    rw [h0]

/-- Witness for C6 at a concrete instance: a first read of lazy property `p`
computes 42 and caches it; a read of the cached instance returns 42 again,
whatever computation is wrapped; after `invalidate` a read runs the new
computation (7) afresh. -/
theorem lazy_property_witness :
    (lazy_property "p" (fun _ => PyVal.int 42) [("a", PyVal.int 1)] =
      (PyVal.int 42, [("a", PyVal.int 1), ("__lazy_p", PyVal.int 42)])) ∧
    (lazy_property "p" (fun _ => PyVal.int 0)
        [("a", PyVal.int 1), ("__lazy_p", PyVal.int 42)] =
      (PyVal.int 42, [("a", PyVal.int 1), ("__lazy_p", PyVal.int 42)])) ∧
    (lazy_property "p" (fun _ => PyVal.int 7)
        (LazyMixin.invalidate [("a", PyVal.int 1), ("__lazy_p", PyVal.int 42)] (some "p")) =
      (PyVal.int 7, [("a", PyVal.int 1), ("__lazy_p", PyVal.int 7)])) := by
  refine ⟨?_, ?_, ?_⟩
  · exact (lazy_property_spec "p" (fun _ => PyVal.int 42) [("a", PyVal.int 1)]
      (by decide)).1 rfl
  · exact (lazy_property_spec "p" (fun _ => PyVal.int 0)
      [("a", PyVal.int 1), ("__lazy_p", PyVal.int 42)] (by decide)).2.1
      (PyVal.int 42) rfl (fun _ => PyVal.int 0)
  · exact (lazy_property_spec "p" (fun _ => PyVal.int 7)
      [("a", PyVal.int 1), ("__lazy_p", PyVal.int 42)] (by decide)).2.2

/-- C8: `invalidate(name)` for a name with no cached lazy entry is a no-op —
the `hasattr` guard skips the `delattr`, nothing is raised, and the instance
is returned unchanged. -/
theorem LazyMixin.invalidate_missing_noop (self : Attrs) (p : String)
    (h : hasattrA self (lazyAttrName p) = false) :
    LazyMixin.invalidate self (some p) = self := by
  unfold LazyMixin.invalidate
  simp [h]

/-- Witness for C8: invalidating the never-computed lazy property `q` on a
concrete instance leaves it untouched. -/
theorem LazyMixin.invalidate_missing_noop_witness :
    LazyMixin.invalidate [("a", PyVal.int 1)] (some "q") = [("a", PyVal.int 1)] :=
  LazyMixin.invalidate_missing_noop [("a", PyVal.int 1)] "q" rfl

/-- C4: `set(name, value)` raises `ValueError` when `name` is not registered
for the class (the registered-type lookup returned `None`) and when the value
fails the registered-type `isinstance` check; in both failure cases the raise
happens before any write, so the instance — in particular its persisted
`params` document — is returned unchanged. -/
theorem ParametrizedMixin.set_error_atomic (hier : Hier) (env : Env) (cls : String)
    (self : Attrs) (name : String) (value : PyVal) :
    ((ParametrizedMixin.parameter_type hier env cls name).1 = Option.none →
      (ParametrizedMixin.set hier env cls self name value).1 =
        Except.error ("Parameter " ++ name ++ " is not registered for class " ++ cls) ∧
      (ParametrizedMixin.set hier env cls self name value).2.1 = self) ∧
    (∀ t, (ParametrizedMixin.parameter_type hier env cls name).1 = some t →
      isinst value t = false →
      (ParametrizedMixin.set hier env cls self name value).1 =
        Except.error "The value is not the same type as registered" ∧
      (ParametrizedMixin.set hier env cls self name value).2.1 = self) := by
  constructor
  · intro h
    unfold ParametrizedMixin.set
    dsimp only
    rw [h]
    exact ⟨rfl, rfl⟩
  · intro t h ht
    unfold ParametrizedMixin.set
    dsimp only
    rw [h]
    dsimp only
    rw [ht]
    exact ⟨rfl, rfl⟩

/-- Witness for C4: with only `p` (an `int`) registered for class `P`,
setting the unregistered `q` fails and setting `p` to a string fails, and in
both cases the instance with its empty `params` document is unchanged. -/
theorem ParametrizedMixin.set_error_atomic_witness :
    ((ParametrizedMixin.set hierOne envP "P" [("params", PyVal.dict [])] "q"
        (PyVal.int 1)).1 =
          Except.error "Parameter q is not registered for class P" ∧
      (ParametrizedMixin.set hierOne envP "P" [("params", PyVal.dict [])] "q"
        (PyVal.int 1)).2.1 = [("params", PyVal.dict [])]) ∧
    ((ParametrizedMixin.set hierOne envP "P" [("params", PyVal.dict [])] "p"
        (PyVal.str "v")).1 =
          Except.error "The value is not the same type as registered" ∧
      (ParametrizedMixin.set hierOne envP "P" [("params", PyVal.dict [])] "p"
        (PyVal.str "v")).2.1 = [("params", PyVal.dict [])]) := by
  constructor
  · exact (ParametrizedMixin.set_error_atomic hierOne envP "P"
      [("params", PyVal.dict [])] "q" (PyVal.int 1)).1 rfl
  · exact (ParametrizedMixin.set_error_atomic hierOne envP "P"
      [("params", PyVal.dict [])] "p" (PyVal.str "v")).2 PyType.intT rfl rfl

/-- C5 counterexample: with `p` registered for class `P` with default 7 and
an empty persisted document, `get("p", 0)` returns the registered default 7
and not the caller's default 0 — the source computes
`default or self.parameter_default(name)`, so a falsy caller-supplied
default is discarded, refuting the claim that a supplied default is always
honoured. -/
theorem ParametrizedMixin.get_falsy_default_counterexample :
    (ParametrizedMixin.get hierOne envP "P" [("params", PyVal.dict [])] "p"
        (PyVal.int 0)).1 = PyVal.int 7 ∧
    PyVal.int 7 ≠ PyVal.int 0 := by
  constructor
  · rfl
  · intro h
    injection h with h'
    exact absurd h' (by decide)

/-- C5 amended: `get(name, default)` returns the stored value when `name` is
present in the parsed document; otherwise it returns the caller's default
only when that default is truthy, and falls back to the registered default
whenever the caller's default is falsy (`None` — the declared default — but
also 0, False, the empty string or the empty dict). -/
theorem ParametrizedMixin.get_spec (hier : Hier) (env : Env) (cls : String)
    (self : Attrs) (name : String) (default : PyVal) :
    (∀ v, dictLookup (ParametrizedMixin.parameters self).1 name = some v →
        (ParametrizedMixin.get hier env cls self name default).1 = v) ∧
    (dictLookup (ParametrizedMixin.parameters self).1 name = Option.none →
        truthy default = true →
        (ParametrizedMixin.get hier env cls self name default).1 = default) ∧
    (dictLookup (ParametrizedMixin.parameters self).1 name = Option.none →
        truthy default = false →
        (ParametrizedMixin.get hier env cls self name default).1 =
          (ParametrizedMixin.parameter_default hier env cls name).1) := by
  unfold ParametrizedMixin.get
  refine ⟨?_, ?_, ?_⟩
  · intro v hv
    cases ht : truthy default <;> simp [ht, dictGet, hv]
  · intro h ht
    simp [ht, dictGet, h]
  · intro h ht
    simp [ht, dictGet, h]

/-- Witness for C5 amended, with `p` registered (default 7) on class `P`: a
stored value wins; a truthy caller default is returned when the name is
absent; the falsy `None` default falls back to the registered default 7. -/
theorem ParametrizedMixin.get_spec_witness :
    (ParametrizedMixin.get hierOne envP "P"
        [("params", PyVal.dict [("p", PyVal.int 5)])] "p" (PyVal.int 0)).1 =
      PyVal.int 5 ∧
    (ParametrizedMixin.get hierOne envP "P" [("params", PyVal.dict [])] "p"
        (PyVal.int 9)).1 = PyVal.int 9 ∧
    (ParametrizedMixin.get hierOne envP "P" [("params", PyVal.dict [])] "p"
        PyVal.none).1 = PyVal.int 7 := by
  refine ⟨?_, ?_, ?_⟩
  · exact (ParametrizedMixin.get_spec hierOne envP "P"
      [("params", PyVal.dict [("p", PyVal.int 5)])] "p" (PyVal.int 0)).1
      (PyVal.int 5) rfl
  · exact (ParametrizedMixin.get_spec hierOne envP "P"
      [("params", PyVal.dict [])] "p" (PyVal.int 9)).2.1 rfl rfl
  · exact (ParametrizedMixin.get_spec hierOne envP "P"
      [("params", PyVal.dict [])] "p" PyVal.none).2.2 rfl rfl

/-- C9 counterexample: constructing a versioned entity with the empty name —
the declared default — succeeds and raises nothing; the constructor stores
`name` unconditionally and performs no emptiness check, refuting the claim
that construction with an empty name fails. -/
theorem VersionedMixin.init_empty_name_accepted :
    VersionedMixin.init (PyVal.str "") PyVal.none =
      Except.ok [("id", PyVal.none), ("name", PyVal.str ""), ("version", PyVal.none)] :=
  rfl

/-- C9 amended: construction does not validate the name — any name, the empty
string included, is accepted (shown with the version argument left at its
`None` default) — while supplying a non-`None` version that is not an `int`
raises `ValueError`. -/
theorem VersionedMixin.init_spec (nm v : PyVal)
    (hv : isNone v = false) (ht : isinst v PyType.intT = false) :
    VersionedMixin.init nm PyVal.none =
      Except.ok [("id", PyVal.none), ("name", nm), ("version", PyVal.none)] ∧
    VersionedMixin.init nm v = Except.error "Version can only be integer" := by
  constructor
  · rfl
  · unfold VersionedMixin.init
    rw [hv, ht]
    rfl

/-- Witness for C9 amended: the empty name is accepted, and a string version
is rejected with `ValueError`. -/
theorem VersionedMixin.init_spec_witness :
    VersionedMixin.init (PyVal.str "") PyVal.none =
      Except.ok [("id", PyVal.none), ("name", PyVal.str ""), ("version", PyVal.none)] ∧
    VersionedMixin.init (PyVal.str "") (PyVal.str "x") =
      Except.error "Version can only be integer" :=
  VersionedMixin.init_spec (PyVal.str "") (PyVal.str "x") rfl rfl

/-- C10: constructing with `version=None` (the default) raises nothing and
leaves the `version` attribute unassigned (it still reads as `None`), so the
persisted row takes the declared column default 1; by the same token the
non-integer check is reached only for a non-`None` version argument. -/
theorem VersionedMixin.init_none_version_default (nm : PyVal) :
    VersionedMixin.init nm PyVal.none =
      Except.ok [("id", PyVal.none), ("name", nm), ("version", PyVal.none)] ∧
    versionOnInsert [("id", PyVal.none), ("name", nm), ("version", PyVal.none)] =
      PyVal.int 1 :=
  ⟨rfl, rfl⟩

theorem rowById_map_if (t : List VersionsRow) (i : Int) (g : VersionsRow → VersionsRow)
    (hg : ∀ r, (g r).id = r.id) :
    rowById (t.map (fun r => if r.id == i then g r else r)) i = (rowById t i).map g := by
  induction t with
  | nil => rfl
  | cons hd tl ih =>
      simp only [rowById, List.map_cons] at ih ⊢
      cases hb : (hd.id == i) with
      | true =>
          rw [if_pos rfl]
          have hgb : ((g hd).id == i) = true := by rw [hg]; exact hb
          have hL : List.find? (fun r => r.id == i)
              (g hd :: List.map (fun r => if (r.id == i) = true then g r else r) tl)
              = some (g hd) := by
            simp [List.find?, hgb]
          have hR : List.find? (fun r => r.id == i) (hd :: tl) = some hd := by
            simp [List.find?, hb]
          rw [hL, hR]
          rfl
      | false =>
          rw [if_neg (by simp)]
          have hL : List.find? (fun r => r.id == i)
              (hd :: List.map (fun r => if (r.id == i) = true then g r else r) tl)
              = List.find? (fun r => r.id == i)
                  (List.map (fun r => if (r.id == i) = true then g r else r) tl) := by
            simp [List.find?, hb]
          have hR : List.find? (fun r => r.id == i) (hd :: tl)
              = List.find? (fun r => r.id == i) tl := by
            simp [List.find?, hb]
          rw [hL, hR]
          exact ih

theorem rowById_increment (t : List VersionsRow) (i : Int) :
    rowById (t.map (fun r =>
        if r.id == i then { r with max_version := r.max_version + 1 } else r)) i
      = (rowById t i).map (fun r => { r with max_version := r.max_version + 1 }) :=
  rowById_map_if t i _ (fun _ => rfl)

theorem current_max_version_eq (t : List VersionsRow) (i : Int) (r : VersionsRow)
    (h : rowById t i = some r) :
    Versions.current_max_version t i =
      (r.max_version + 1,
       t.map (fun q =>
         if q.id == i then { q with max_version := q.max_version + 1 } else q)) := by
  unfold Versions.current_max_version
  dsimp only
  rw [rowById_increment, h]
  rfl

/-- C2: when the row with id `i` is in the table holding counter value
`max_version`, `current_max_version()` returns `max_version + 1` and the
persisted row afterwards stores `max_version + 1`: the counter is
incremented by exactly one, persisted, and the new value returned. -/
theorem Versions.current_max_version_spec (t : List VersionsRow) (i : Int)
    (r : VersionsRow) (h : rowById t i = some r) :
    (Versions.current_max_version t i).1 = r.max_version + 1 ∧
    rowById (Versions.current_max_version t i).2 i =
      some { r with max_version := r.max_version + 1 } := by
  rw [current_max_version_eq t i r h]
  refine ⟨rfl, ?_⟩
  rw [rowById_increment, h]
  rfl

/-- Witness for C2, the spec's example: a counter row at `max_version=3`
returns 4 and persists `max_version=4`. -/
theorem Versions.current_max_version_witness :
    (Versions.current_max_version
        [{ id := 1, class_name := "M", record_name := PyVal.str "n", max_version := 3 }] 1).1
      = 4 ∧
    rowById (Versions.current_max_version
        [{ id := 1, class_name := "M", record_name := PyVal.str "n", max_version := 3 }] 1).2 1
      = some { id := 1, class_name := "M", record_name := PyVal.str "n", max_version := 4 } :=
  Versions.current_max_version_spec
    [{ id := 1, class_name := "M", record_name := PyVal.str "n", max_version := 3 }] 1
    { id := 1, class_name := "M", record_name := PyVal.str "n", max_version := 3 } rfl

theorem applyKw_cons (s : Attrs) (hd : String × PyVal) (tl : List (String × PyVal)) :
    applyKw s (hd :: tl) =
      applyKw (if hasattrA s hd.1 && !(isNone hd.2) then setattr s hd.1 hd.2 else s) tl :=
  rfl

theorem applyKw_getattr_not_mem (kw : List (String × PyVal)) (s : Attrs) (k : String)
    (h : k ∉ kw.map Prod.fst) :
    getattr? (applyKw s kw) k = getattr? s k := by
  induction kw generalizing s with
  | nil => rfl
  | cons hd tl ih =>
      simp only [List.map_cons, List.mem_cons] at h
      push_neg at h
      rw [applyKw_cons, ih _ h.2]
      by_cases hc : (hasattrA s hd.1 && !(isNone hd.2)) = true
      · rw [if_pos hc, getattr?_setattr_ne s hd.1 k hd.2 h.1]
      · rw [if_neg hc]

theorem applyKw_getattr_mem (kw : List (String × PyVal)) (s : Attrs) (k : String) (v : PyVal)
    (hnd : (kw.map Prod.fst).Nodup) (hmem : (k, v) ∈ kw)
    (hhas : hasattrA s k = true) (hv : isNone v = false) :
    getattr? (applyKw s kw) k = some v := by
  induction kw generalizing s with
  | nil => cases hmem
  | cons hd tl ih =>
      simp only [List.map_cons, List.nodup_cons] at hnd
      rw [applyKw_cons]
      rcases List.mem_cons.mp hmem with heq | htl
      · subst heq
        have hc : (hasattrA s k && !(isNone v)) = true := by simp [hhas, hv]
        rw [if_pos hc]
        rw [applyKw_getattr_not_mem tl _ k (by simpa using hnd.1)]
        exact getattr?_setattr_self s k v
      · have hkmem : k ∈ tl.map Prod.fst := List.mem_map_of_mem Prod.fst htl
        have hk : k ≠ hd.1 := fun he => hnd.1 (he ▸ hkmem)
        by_cases hc : (hasattrA s hd.1 && !(isNone hd.2)) = true
        · rw [if_pos hc]
          have hhas' : hasattrA (setattr s hd.1 hd.2) k = true := by
            rw [hasattrA_setattr]
            simp [hk, hhas]
          exact ih _ hnd.2 htl hhas'
        · rw [if_neg hc]
          exact ih _ hnd.2 htl hhas

/-- C1: `new_version(**overrides)` on an entity whose version-counter row for
(class, name) is present and currently holds `k`: the returned instance
carries version `k + 1` (minted through `set_version`), its surrogate id is
cleared to `None`, every override carrying a non-`None` value whose key names
an existing attribute is applied, the previously persisted entity rows are
untouched, and the counter row is persisted at `k + 1`.  The override keys
are the keys of a Python `**kwargs` dict, hence pairwise distinct, and are
taken not to shadow the `version` and `id` fields the method itself just
wrote. -/
theorem VersionedMixin.new_version_spec
    (db : DB) (clsName : String) (self : Attrs) (kwargs : List (String × PyVal))
    (row : VersionsRow) (k : Int)
    (hfind : findVersionsRow db.versions clsName
        ((getattr? self "name").getD PyVal.none) = some row)
    (hk : row.max_version = k)
    (hid : rowById db.versions row.id = some row)
    (hkeys : (kwargs.map Prod.fst).Nodup)
    (hnv : "version" ∉ kwargs.map Prod.fst)
    (hni : "id" ∉ kwargs.map Prod.fst) :
    getattr? (VersionedMixin.new_version db clsName self kwargs).1 "version"
        = some (PyVal.int (k + 1)) ∧
    getattr? (VersionedMixin.new_version db clsName self kwargs).1 "id"
        = some PyVal.none ∧
    (∀ kv ∈ kwargs, hasattrA self kv.1 = true → isNone kv.2 = false →
        getattr? (VersionedMixin.new_version db clsName self kwargs).1 kv.1 = some kv.2) ∧
    (VersionedMixin.new_version db clsName self kwargs).2.entities = db.entities ∧
    rowById (VersionedMixin.new_version db clsName self kwargs).2.versions row.id
        = some { row with max_version := k + 1 } := by
  have hnveq : VersionedMixin.new_version db clsName self kwargs =
      (applyKw (setattr (setattr self "version" (PyVal.int (k + 1))) "id" PyVal.none)
         kwargs,
       { db with versions := db.versions.map (fun q =>
           if q.id == row.id then { q with max_version := q.max_version + 1 } else q) }) := by
    unfold VersionedMixin.new_version VersionedMixin.set_version
    dsimp only
    rw [hfind]
    dsimp only
    rw [current_max_version_eq db.versions row.id row hid]
    dsimp only
    rw [hk]
  rw [hnveq]
  dsimp only
  refine ⟨?_, ?_, ?_, rfl, ?_⟩
  · rw [applyKw_getattr_not_mem kwargs _ "version" hnv]
    rw [getattr?_setattr_ne _ "id" "version" PyVal.none (by decide)]
    exact getattr?_setattr_self self "version" (PyVal.int (k + 1))
  · rw [applyKw_getattr_not_mem kwargs _ "id" hni]
    exact getattr?_setattr_self _ "id" PyVal.none
  · intro kv hkv hhas hvn
    have hk1 : kv.1 ≠ "id" := fun he => hni (he ▸ List.mem_map_of_mem Prod.fst hkv)
    have hk2 : kv.1 ≠ "version" := fun he => hnv (he ▸ List.mem_map_of_mem Prod.fst hkv)
    have hhas2 : hasattrA
        (setattr (setattr self "version" (PyVal.int (k + 1))) "id" PyVal.none) kv.1
        = true := by
      rw [hasattrA_setattr, hasattrA_setattr]
      simp [hk1, hk2, hhas]
    have := applyKw_getattr_mem kwargs _ kv.1 kv.2 hkeys (by simpa using hkv) hhas2 hvn
    simpa using this
  · rw [rowById_increment, hid]
    dsimp only [Option.map]
    rw [hk]

/-- Witness for C1, the spec's example: an entity named `e` at version 2 with
its counter row at 2; `new_version(name="foo")` yields a transient instance
with version 3, no surrogate id and the override applied, while the stored
entity row keeps version 2 and the counter row is persisted at 3. -/
theorem VersionedMixin.new_version_witness :
    getattr? (VersionedMixin.new_version
        { versions := [{ id := 1, class_name := "M", record_name := PyVal.str "e",
                         max_version := 2 }],
          entities := [{ id := 1, name := PyVal.str "e", version := 2 }] }
        "M" [("id", PyVal.int 1), ("name", PyVal.str "e"), ("version", PyVal.int 2)]
        [("name", PyVal.str "foo")]).1 "version" = some (PyVal.int 3) ∧
    getattr? (VersionedMixin.new_version
        { versions := [{ id := 1, class_name := "M", record_name := PyVal.str "e",
                         max_version := 2 }],
          entities := [{ id := 1, name := PyVal.str "e", version := 2 }] }
        "M" [("id", PyVal.int 1), ("name", PyVal.str "e"), ("version", PyVal.int 2)]
        [("name", PyVal.str "foo")]).1 "id" = some PyVal.none ∧
    getattr? (VersionedMixin.new_version
        { versions := [{ id := 1, class_name := "M", record_name := PyVal.str "e",
                         max_version := 2 }],
          entities := [{ id := 1, name := PyVal.str "e", version := 2 }] }
        "M" [("id", PyVal.int 1), ("name", PyVal.str "e"), ("version", PyVal.int 2)]
        [("name", PyVal.str "foo")]).1 "name" = some (PyVal.str "foo") ∧
    (VersionedMixin.new_version
        { versions := [{ id := 1, class_name := "M", record_name := PyVal.str "e",
                         max_version := 2 }],
          entities := [{ id := 1, name := PyVal.str "e", version := 2 }] }
        "M" [("id", PyVal.int 1), ("name", PyVal.str "e"), ("version", PyVal.int 2)]
        [("name", PyVal.str "foo")]).2.entities =
      [{ id := 1, name := PyVal.str "e", version := 2 }] ∧
    rowById (VersionedMixin.new_version
        { versions := [{ id := 1, class_name := "M", record_name := PyVal.str "e",
                         max_version := 2 }],
          entities := [{ id := 1, name := PyVal.str "e", version := 2 }] }
        "M" [("id", PyVal.int 1), ("name", PyVal.str "e"), ("version", PyVal.int 2)]
        [("name", PyVal.str "foo")]).2.versions 1 =
      some { id := 1, class_name := "M", record_name := PyVal.str "e",
             max_version := 3 } := by
  have h := VersionedMixin.new_version_spec
    { versions := [{ id := 1, class_name := "M", record_name := PyVal.str "e",
                     max_version := 2 }],
      entities := [{ id := 1, name := PyVal.str "e", version := 2 }] }
    "M" [("id", PyVal.int 1), ("name", PyVal.str "e"), ("version", PyVal.int 2)]
    [("name", PyVal.str "foo")]
    { id := 1, class_name := "M", record_name := PyVal.str "e", max_version := 2 } 2
    rfl rfl rfl (by decide) (by decide) (by decide)
  refine ⟨h.1, h.2.1, ?_, h.2.2.2.1, h.2.2.2.2⟩
  exact h.2.2.1 ("name", PyVal.str "foo") (List.mem_singleton.mpr rfl) rfl rfl
